import Mathlib

/-!
Verification of the type-bridge attribute layer.

Shallow embedding of `src/type_bridge/attribute.py` (attribute metadata,
schema-definition rendering, the Key/Unique/Card flag algebra and its
TypeQL annotation rendering), together with a spec-modelled embedding of
the filter-expression surfaces (keyword-lookup kwargs versus typed
role-field expressions), whose implementation is exercised only by the
integration tests in the provided sources.
-/

namespace TypeBridge

/-- Errors of the Python runtime relevant to this development.  `valueError`
models Python's builtin `ValueError`; `configurationError` models the
`ConfigurationError` class named by the specification (no such class occurs
in the sources). -/
inductive PyExc where
  | valueError (msg : String)
  | configurationError (msg : String)
deriving DecidableEq, Repr

/-- The resolved state of a `Card` marker: `min` and `max` bounds, either of
which may be absent (`None` in Python). -/
structure CardVal where
  min : Option Int
  max : Option Int
deriving DecidableEq, Repr

/-- Embedding of `Card.__init__` (attribute.py lines 517-544).  `args` are the
positional arguments, `mn`/`mx` the `min=`/`max=` keyword arguments.  A raise
becomes an `Except.error`. -/
def card_init (args : List Int) (mn mx : Option Int) : Except PyExc CardVal :=
  match args with
  | [] =>
    if mn.isNone && mx.isSome then Except.ok { min := some 0, max := mx }
    else Except.ok { min := mn, max := mx }
  | [a] => Except.ok { min := some a, max := mx }
  | [a, b] => Except.ok { min := some a, max := some b }
  | _ => Except.error (PyExc.valueError "Card accepts at most 2 positional arguments")

/-- True when the result of `card_init` is a raised `ConfigurationError`. -/
def raisesConfigError (r : Except PyExc CardVal) : Bool :=
  match r with
  | Except.error (PyExc.configurationError _) => true
  | _ => false

/-- Embedding of the `AttributeFlags` dataclass (attribute.py lines 547-566)
with its field defaults. -/
structure AttributeFlags where
  is_key : Bool := false
  is_unique : Bool := false
  card_min : Option Int := none
  card_max : Option Int := none
  has_explicit_card : Bool := false
deriving DecidableEq, Repr

/-- The `@card(...)` string built by the two f-strings inside
`AttributeFlags.to_typeql_annotations`:  `@card(min..max)` for a bounded max,
`@card(min..)` for an unbounded one, with `min_val` defaulting to 0. -/
def cardAnn (cmin cmax : Option Int) : String :=
  let min_val := cmin.getD 0
  match cmax with
  | some mx => "@card(" ++ toString min_val ++ ".." ++ toString mx ++ ")"
  | none => "@card(" ++ toString min_val ++ "..)"

/-- Embedding of `AttributeFlags.to_typeql_annotations` (attribute.py lines
568-602), transcribing the imperative list construction. -/
def AttributeFlags.to_typeql_annotations (f : AttributeFlags) : List String :=
  let anns : List String := []
  let anns := if f.is_key then anns ++ ["@key"] else anns
  let anns := if f.is_unique then anns ++ ["@unique"] else anns
  let should_output_card := f.card_min.isSome || f.card_max.isSome
  if should_output_card && !f.is_key then
    let is_default_card := f.card_min == some 1 && f.card_max == some 1
    if !(f.is_unique && is_default_card) then
      anns ++ [cardAnn f.card_min f.card_max]
    else anns
  else anns

/-- An argument passed to the variadic `Flag(*annotations)` constructor: the
`Key` marker, the `Unique` marker, a `Card` instance, or any other Python
value (which the loop body does not recognise). -/
inductive FlagArg where
  | key
  | unique
  | card (c : CardVal)
  | other (junk : Nat)
deriving DecidableEq, Repr

/-- True exactly on the `Key` marker. -/
def isKeyArg : FlagArg → Bool
  | FlagArg.key => true
  | _ => false

/-- True exactly on the `Unique` marker. -/
def isUniqueArg : FlagArg → Bool
  | FlagArg.unique => true
  | _ => false

/-- True exactly on `Card` instances. -/
def isCardArg : FlagArg → Bool
  | FlagArg.card _ => true
  | _ => false

/-- One iteration of the `for ann in annotations` loop inside `Flag`
(attribute.py lines 637-647); the `Bool` component is the local `has_card`
variable. -/
def FlagStep (acc : AttributeFlags × Bool) (ann : FlagArg) : AttributeFlags × Bool :=
  match ann with
  | FlagArg.key => ({ acc.1 with is_key := true }, acc.2)
  | FlagArg.unique => ({ acc.1 with is_unique := true }, acc.2)
  | FlagArg.card c =>
    ({ acc.1 with card_min := c.min, card_max := c.max, has_explicit_card := true }, true)
  | FlagArg.other _ => acc

/-- Embedding of the `Flag` function (attribute.py lines 605-654): fold the
loop over the arguments starting from default `AttributeFlags()` and
`has_card = False`, then apply the Key-implies-card(1,1) default.  The Python
function contains no `raise`, so the embedding is a total function into
`AttributeFlags`. -/
def Flag (anns : List FlagArg) : AttributeFlags :=
  let r := anns.foldl FlagStep ({}, false)
  if r.1.is_key && !r.2 then { r.1 with card_min := some 1, card_max := some 1 }
  else r.1

/-- Class-level metadata of an `Attribute` subclass as used by
`to_schema_definition`: attribute name, TypeQL value type, optional
supertype, abstract flag. -/
structure AttrClassMeta where
  attr_name : String
  value_type : String
  supertype : Option String
  abstract : Bool
deriving DecidableEq, Repr

/-- Embedding of `Attribute.to_schema_definition` (attribute.py lines
169-188): branch on the supertype, append `, abstract` when abstract, close
with a semicolon. -/
def to_schema_definition (c : AttrClassMeta) : String :=
  let definition :=
    match c.supertype with
    | some sup => "attribute " ++ c.attr_name ++ " sub " ++ sup ++ ", value " ++ c.value_type
    | none => "attribute " ++ c.attr_name ++ ", value " ++ c.value_type
  let definition := if c.abstract then definition ++ ", abstract" else definition
  definition ++ ";"

/-- The schema grammar exactly as the specification writes it:
`attribute <name>[, sub <supertype>], value <kind>[, abstract];` — with a
comma separating the name from the `sub` clause. -/
def spec_schema_text (c : AttrClassMeta) : String :=
  "attribute " ++ c.attr_name ++
    (match c.supertype with
     | some sup => ", sub " ++ sup
     | none => "") ++
    ", value " ++ c.value_type ++
    (if c.abstract then ", abstract" else "") ++ ";"

/-- The schema grammar amended to what the code emits: a space, not a comma,
before the `sub` clause:
`attribute <name>[ sub <supertype>], value <kind>[, abstract];`. -/
def amended_schema_text (c : AttrClassMeta) : String :=
  "attribute " ++ c.attr_name ++
    (match c.supertype with
     | some sup => " sub " ++ sup
     | none => "") ++
    ", value " ++ c.value_type ++
    (if c.abstract then ", abstract" else "") ++ ";"

/-- Lowercasing of one character as Python's `str.lower` acts on ASCII class
names. -/
def pyLowerChar (c : Char) : Char :=
  if 'A' ≤ c && c ≤ 'Z' then Char.ofNat (c.toNat + 32) else c

/-- Lowercasing of a string, modelling `str.lower` on ASCII class names. -/
def pyLower (s : String) : String :=
  String.mk (s.data.map pyLowerChar)

/-- The per-class attribute-name state of an `Attribute` subclass: the class
name (`cls.__name__`) and the `_attr_name` slot (`None` when never set). -/
structure PyAttrClass where
  name : String
  attr_name : Option String
deriving DecidableEq, Repr

/-- Embedding of class creation for an `Attribute` subclass: the new class
first inherits `_attr_name` through Python attribute lookup, then
`Attribute.__init_subclass__` (attribute.py lines 122-128) unconditionally
overwrites it with the new class's own lowercased name. -/
def init_subclass (parent : PyAttrClass) (cls_name : String) : PyAttrClass :=
  let inherited : PyAttrClass := { name := cls_name, attr_name := parent.attr_name }
  { inherited with attr_name := some (pyLower cls_name) }

/-- Embedding of `Attribute.get_attribute_name` (attribute.py lines 144-147):
`cls._attr_name or cls.__name__.lower()`, where Python's `or` falls through
on `None` and on the empty string. -/
def get_attribute_name (c : PyAttrClass) : String :=
  match c.attr_name with
  | some s => if s = "" then pyLower c.name else s
  | none => pyLower c.name

/-- Modelled from the spec: the predicate operators of the filter layer
(`eq, neq, gt, gte, lt, lte, contains, like`); the filter compiler and
expression AST are not under the provided sources (only their integration
tests are). -/
inductive Op where
  | eq
  | neq
  | gt
  | gte
  | lt
  | lte
  | contains
  | like
deriving DecidableEq, Repr

/-- The operator-suffix spelling of each operator as it appears in a
keyword-lookup key. -/
def opName : Op → String
  | Op.eq => "eq"
  | Op.neq => "neq"
  | Op.gt => "gt"
  | Op.gte => "gte"
  | Op.lt => "lt"
  | Op.lte => "lte"
  | Op.contains => "contains"
  | Op.like => "like"

/-- Recognise a keyword-lookup segment as one of the known operator
suffixes. -/
def knownOp (s : String) : Option Op :=
  if s = "eq" then some Op.eq
  else if s = "neq" then some Op.neq
  else if s = "gt" then some Op.gt
  else if s = "gte" then some Op.gte
  else if s = "lt" then some Op.lt
  else if s = "lte" then some Op.lte
  else if s = "contains" then some Op.contains
  else if s = "like" then some Op.like
  else none

/-- A primitive operand value carried by a predicate. -/
inductive Value where
  | int (i : Int)
  | str (s : String)
  | bool (b : Bool)
deriving DecidableEq, Repr

/-- Modelled from the spec: the internal predicate shape
`(pathSegments: ordered sequence of string, operator, operand)` that both
filter surfaces must resolve to. -/
structure Predicate where
  pathSegments : List String
  op : Op
  operand : Value
deriving DecidableEq, Repr

/-- Split a character list on double-underscore separators, scanning left to
right (the behaviour of Python's `key.split("__")`). -/
def splitDunder : List Char → List Char → List (List Char)
  | [], acc => [acc.reverse]
  | '_' :: '_' :: rest, acc => acc.reverse :: splitDunder rest []
  | c :: rest, acc => splitDunder rest (c :: acc)

/-- Split a keyword-lookup key into its double-underscore-delimited
segments. -/
def splitKey (s : String) : List String :=
  (splitDunder s.data []).map (fun cs => String.mk cs)

/-- Modelled from the spec: parsing of a keyword-lookup kwarg
`a__b__op=value` — split on double underscores, read the trailing segment
right-to-left as an operator suffix, defaulting to `eq` when the trailing
segment is not a known operator. -/
def parseKwarg (key : String) (v : Value) : Predicate :=
  let parts := splitKey key
  match parts.getLast? with
  | none => { pathSegments := [], op := Op.eq, operand := v }
  | some lastSeg =>
    match knownOp lastSeg with
    | some o => { pathSegments := parts.dropLast, op := o, operand := v }
    | none => { pathSegments := parts, op := Op.eq, operand := v }

/-- Modelled from the spec: the predicate produced by a typed role-field
expression `Relation.role.attribute.op(operand)` — the path is the role
segment followed by the attribute segment, and the operator call yields the
predicate directly. -/
def roleFieldPredicate (role attr : String) (o : Op) (operand : Value) : Predicate :=
  { pathSegments := [role, attr], op := o, operand := operand }

/-- Render a predicate operand into query text. -/
def renderValue : Value → String
  | Value.int i => toString i
  | Value.str s => "\x22" ++ s ++ "\x22"
  | Value.bool b => if b then "true" else "false"

/-- Modelled from the spec: deterministic rendering of one predicate of the
compiled query fragment, with the query variable named sequentially by first
appearance. -/
def renderPredicate (idx : Nat) (p : Predicate) : String :=
  "$v" ++ toString idx ++ " " ++ String.intercalate "." p.pathSegments ++ " " ++
    opName p.op ++ " " ++ renderValue p.operand ++ "; "

/-- Modelled from the spec: the compiled query text of an ordered predicate
list — predicates in insertion order, variables numbered sequentially, so
that compiling the same predicate list twice yields byte-identical text. -/
def compileQueryText (preds : List Predicate) : String :=
  String.join (preds.enum.map (fun ip => renderPredicate ip.1 ip.2))

/-! Helper lemmas about the `Flag` fold. -/

theorem foldl_fst_is_key (anns : List FlagArg) :
    ∀ acc : AttributeFlags × Bool,
      ((anns.foldl FlagStep acc).1).is_key = (acc.1.is_key || anns.any isKeyArg) := by
  induction anns with
  | nil => intro acc; simp
  | cons a t ih =>
    intro acc
    cases a <;> simp [FlagStep, ih, isKeyArg, Bool.or_assoc]

theorem foldl_fst_is_unique (anns : List FlagArg) :
    ∀ acc : AttributeFlags × Bool,
      ((anns.foldl FlagStep acc).1).is_unique = (acc.1.is_unique || anns.any isUniqueArg) := by
  induction anns with
  | nil => intro acc; simp
  | cons a t ih =>
    intro acc
    cases a <;> simp [FlagStep, ih, isUniqueArg, Bool.or_assoc]

theorem foldl_snd_has_card (anns : List FlagArg) :
    ∀ acc : AttributeFlags × Bool,
      (anns.foldl FlagStep acc).2 = (acc.2 || anns.any isCardArg) := by
  induction anns with
  | nil => intro acc; simp
  | cons a t ih =>
    intro acc
    cases a <;> simp [FlagStep, ih, isCardArg, Bool.or_assoc]

theorem foldl_fst_card_min (anns : List FlagArg) :
    ∀ acc : AttributeFlags × Bool, anns.all (fun a => !isCardArg a) = true →
      ((anns.foldl FlagStep acc).1).card_min = acc.1.card_min := by
  induction anns with
  | nil => intro acc _; simp
  | cons a t ih =>
    intro acc h
    rw [List.all_cons, Bool.and_eq_true] at h
    obtain ⟨h1, h2⟩ := h
    cases a with
    | key => exact ih _ h2
    | unique => exact ih _ h2
    | card c => simp [isCardArg] at h1
    | other j => exact ih _ h2

theorem foldl_fst_card_max (anns : List FlagArg) :
    ∀ acc : AttributeFlags × Bool, anns.all (fun a => !isCardArg a) = true →
      ((anns.foldl FlagStep acc).1).card_max = acc.1.card_max := by
  induction anns with
  | nil => intro acc _; simp
  | cons a t ih =>
    intro acc h
    rw [List.all_cons, Bool.and_eq_true] at h
    obtain ⟨h1, h2⟩ := h
    cases a with
    | key => exact ih _ h2
    | unique => exact ih _ h2
    | card c => simp [isCardArg] at h1
    | other j => exact ih _ h2

theorem Flag_is_key (anns : List FlagArg) : (Flag anns).is_key = anns.any isKeyArg := by
  simp only [Flag]
  split <;> simp [foldl_fst_is_key]

theorem Flag_of_not_key (anns : List FlagArg) (h : anns.any isKeyArg = false) :
    Flag anns = (anns.foldl FlagStep ({}, false)).1 := by
  simp only [Flag]
  rw [foldl_fst_is_key]
  simp [h]

/-! Helper lemmas about annotation rendering. -/

theorem anns_of_key (f : AttributeFlags) (h : f.is_key = true) :
    f.to_typeql_annotations = "@key" :: (if f.is_unique then ["@unique"] else []) := by
  cases hu : f.is_unique <;> simp [AttributeFlags.to_typeql_annotations, h, hu]

theorem anns_of_unique_card11 (f : AttributeFlags) (hu : f.is_unique = true)
    (hmin : f.card_min = some 1) (hmax : f.card_max = some 1) :
    f.to_typeql_annotations = (if f.is_key then ["@key"] else []) ++ ["@unique"] := by
  cases hk : f.is_key <;> simp [AttributeFlags.to_typeql_annotations, hu, hmin, hmax, hk]

theorem anns_of_unique_only (f : AttributeFlags) (hk : f.is_key = false)
    (hu : f.is_unique = true) (hmin : f.card_min = none) (hmax : f.card_max = none) :
    f.to_typeql_annotations = ["@unique"] := by
  simp [AttributeFlags.to_typeql_annotations, hk, hu, hmin, hmax]

theorem knownOp_opName (o : Op) : knownOp (opName o) = some o := by
  cases o <;> rfl

/-! Claim theorems. -/

/-- Claim C1 as stated is false: for an attribute with a supertype the code
emits `attribute name sub identifier, value string;` — a space, not a comma,
separates the name from the `sub` clause — so the generated text does not
match the spec grammar character for character. -/
theorem c1_counterexample :
    to_schema_definition ⟨"name", "string", some "identifier", false⟩ =
      "attribute name sub identifier, value string;" ∧
    spec_schema_text ⟨"name", "string", some "identifier", false⟩ =
      "attribute name, sub identifier, value string;" ∧
    to_schema_definition ⟨"name", "string", some "identifier", false⟩ ≠
      spec_schema_text ⟨"name", "string", some "identifier", false⟩ :=
  ⟨rfl, rfl, by decide⟩

/-- Claim C1 (amended): for every attribute type the generated schema
definition string follows the grammar
`attribute <name>[ sub <super>], value <kind>[, abstract];` — the `sub`
clause (separated from the name by a space, not a comma) is present iff a
supertype is set, and the `, abstract` clause is present iff the abstract
flag is set. -/
theorem c1_amended_schema_grammar (c : AttrClassMeta) :
    to_schema_definition c = amended_schema_text c := by
  obtain ⟨n, v, sup, ab⟩ := c
  cases sup <;> cases ab <;>
    simp [to_schema_definition, amended_schema_text, String.append_assoc]

/-- Claim C2 as stated is false: a field declared with `Unique` and no
explicit `Card` has no resolved cardinality at all (`card_min` and
`card_max` are both `None`), not cardinality (1,1); only the annotation part
of the claim holds. -/
theorem c2_counterexample :
    (Flag [FlagArg.unique]).to_typeql_annotations = ["@unique"] ∧
    (Flag [FlagArg.unique]).card_min = none ∧
    (Flag [FlagArg.unique]).card_max = none ∧
    ¬((Flag [FlagArg.unique]).card_min = some 1 ∧
      (Flag [FlagArg.unique]).card_max = some 1) := by
  decide

/-- Claim C2 (amended): for every field declared with the `Unique` marker, no
explicit `Card` marker and no `Key` marker, the resolved flags have no
cardinality set (`card_min` and `card_max` both remain unset rather than
becoming (1,1)), and the rendered annotation list is exactly `["@unique"]`
with no `@card` annotation. -/
theorem c2_amended_unique_no_card (anns : List FlagArg)
    (hu : FlagArg.unique ∈ anns) (hk : FlagArg.key ∉ anns)
    (hc : ∀ c, FlagArg.card c ∉ anns) :
    (Flag anns).is_unique = true ∧
    (Flag anns).card_min = none ∧ (Flag anns).card_max = none ∧
    (Flag anns).to_typeql_annotations = ["@unique"] := by
  have hkb : anns.any isKeyArg = false := by
    rw [List.any_eq_false]
    intro a ha
    cases a with
    | key => exact absurd ha hk
    | unique => simp [isKeyArg]
    | card c => simp [isKeyArg]
    | other j => simp [isKeyArg]
  have hcb : anns.all (fun a => !isCardArg a) = true := by
    rw [List.all_eq_true]
    intro a ha
    cases a with
    | key => simp [isCardArg]
    | unique => simp [isCardArg]
    | card c => exact absurd ha (hc c)
    | other j => simp [isCardArg]
  have hub : anns.any isUniqueArg = true :=
    List.any_eq_true.mpr ⟨FlagArg.unique, hu, rfl⟩
  have hflag : Flag anns = (anns.foldl FlagStep ({}, false)).1 := Flag_of_not_key anns hkb
  have h1 : (Flag anns).is_unique = true := by
    rw [hflag, foldl_fst_is_unique]
    simp [hub]
  have h2 : (Flag anns).card_min = none := by
    rw [hflag, foldl_fst_card_min anns _ hcb]
  have h3 : (Flag anns).card_max = none := by
    rw [hflag, foldl_fst_card_max anns _ hcb]
  have h0 : (Flag anns).is_key = false := by
    rw [Flag_is_key, hkb]
  exact ⟨h1, h2, h3, anns_of_unique_only _ h0 h1 h2 h3⟩

/-- Witness for the amended claim C2 at the concrete declaration
`Flag(Unique)`. -/
theorem c2_amended_witness :
    (FlagArg.unique ∈ [FlagArg.unique] ∧ FlagArg.key ∉ [FlagArg.unique] ∧
      ∀ c, FlagArg.card c ∉ [FlagArg.unique]) ∧
    ((Flag [FlagArg.unique]).is_unique = true ∧
      (Flag [FlagArg.unique]).card_min = none ∧
      (Flag [FlagArg.unique]).card_max = none ∧
      (Flag [FlagArg.unique]).to_typeql_annotations = ["@unique"]) :=
  ⟨⟨by simp, by simp, fun c => by simp⟩,
    c2_amended_unique_no_card [FlagArg.unique] (by simp) (by simp) (fun c => by simp)⟩

/-- Claim C3 as stated is false: constructing a `Card` marker with three
positional bounds does fail eagerly inside the constructor, but with
`ValueError` ("Card accepts at most 2 positional arguments"), not with
`ConfigurationError`. -/
theorem c3_counterexample :
    card_init [1, 2, 3] none none =
      Except.error (PyExc.valueError "Card accepts at most 2 positional arguments") ∧
    raisesConfigError (card_init [1, 2, 3] none none) = false :=
  ⟨rfl, rfl⟩

/-- Claim C3 (amended): constructing a `Card` marker with more than two
positional bounds fails eagerly inside the `Card` constructor — not deferred
to schema sync — with `ValueError` ("Card accepts at most 2 positional
arguments") rather than `ConfigurationError`. -/
theorem c3_amended_card_positional (args : List Int) (mn mx : Option Int)
    (h : 2 < args.length) :
    card_init args mn mx =
      Except.error (PyExc.valueError "Card accepts at most 2 positional arguments") := by
  match args with
  | [] => simp at h
  | [a] => simp at h
  | [a, b] => simp at h
  | a :: b :: c :: rest => rfl

/-- Witness for the amended claim C3 at the concrete call `Card(1, 2, 3)`. -/
theorem c3_amended_witness :
    2 < ([1, 2, 3] : List Int).length ∧
    card_init [1, 2, 3] none none =
      Except.error (PyExc.valueError "Card accepts at most 2 positional arguments") :=
  ⟨by decide, c3_amended_card_positional [1, 2, 3] none none (by decide)⟩

/-- Claim C4: for every field declared with the `Key` marker (with or without
other markers, including an explicit `Card`), the rendered annotation list
includes `@key` and never includes any `@card` annotation (every element is
`@key` or `@unique`); and when no explicit `Card` accompanies `Key`, the
resolved cardinality is (1,1). -/
theorem c4_key_annotations (anns : List FlagArg) (hk : FlagArg.key ∈ anns) :
    "@key" ∈ (Flag anns).to_typeql_annotations ∧
    (∀ s ∈ (Flag anns).to_typeql_annotations, s = "@key" ∨ s = "@unique") ∧
    ((∀ c, FlagArg.card c ∉ anns) →
      (Flag anns).card_min = some 1 ∧ (Flag anns).card_max = some 1) := by
  have hkb : anns.any isKeyArg = true :=
    List.any_eq_true.mpr ⟨FlagArg.key, hk, rfl⟩
  have hisk : (Flag anns).is_key = true := by
    rw [Flag_is_key, hkb]
  have hlist := anns_of_key (Flag anns) hisk
  refine ⟨?_, ?_, ?_⟩
  · rw [hlist]; exact List.mem_cons_self _ _
  · intro s hs
    rw [hlist] at hs
    rcases List.mem_cons.mp hs with h | h
    · exact Or.inl h
    · cases hu : (Flag anns).is_unique <;> rw [hu] at h <;> simp at h
      exact Or.inr h
  · intro hc
    have hcb : anns.any isCardArg = false := by
      rw [List.any_eq_false]
      intro a ha
      cases a with
      | key => simp [isCardArg]
      | unique => simp [isCardArg]
      | card c => exact absurd ha (hc c)
      | other j => simp [isCardArg]
    simp only [Flag]
    rw [foldl_fst_is_key, foldl_snd_has_card]
    simp [hkb, hcb]

/-- Witness for claim C4 at the concrete declaration `Flag(Key)`. -/
theorem c4_witness :
    FlagArg.key ∈ [FlagArg.key] ∧
    ("@key" ∈ (Flag [FlagArg.key]).to_typeql_annotations ∧
      (∀ s ∈ (Flag [FlagArg.key]).to_typeql_annotations, s = "@key" ∨ s = "@unique") ∧
      ((∀ c, FlagArg.card c ∉ [FlagArg.key]) →
        (Flag [FlagArg.key]).card_min = some 1 ∧
        (Flag [FlagArg.key]).card_max = some 1)) :=
  ⟨by simp, c4_key_annotations [FlagArg.key] (by simp)⟩

/-- Claim C5: `Card(min=2)` (no max) renders `@card(2..)`, `Card(1, 5)`
renders `@card(1..5)`, and `Card(max=5)` defaults min to 0 and renders
`@card(0..5)`, in each case as the sole annotation of a field flagged with
just that `Card` marker. -/
theorem c5_card_rendering :
    (card_init [] (some 2) none).map
      (fun c => (Flag [FlagArg.card c]).to_typeql_annotations) =
        Except.ok ["@card(2..)"] ∧
    (card_init [1, 5] none none).map
      (fun c => (Flag [FlagArg.card c]).to_typeql_annotations) =
        Except.ok ["@card(1..5)"] ∧
    (card_init [] none (some 5)).map
      (fun c => (Flag [FlagArg.card c]).to_typeql_annotations) =
        Except.ok ["@card(0..5)"] :=
  ⟨rfl, rfl, rfl⟩

/-- Claim C6: for every flag state with `is_unique` true and resolved
cardinality exactly (1,1) — including when set by an explicit `Card(1,1)`
marker, as in the witness — the rendered annotation list contains `@unique`
and no `@card` annotation (every element is `@key` or `@unique`). -/
theorem c6_unique_card11 (f : AttributeFlags) (hu : f.is_unique = true)
    (hmin : f.card_min = some 1) (hmax : f.card_max = some 1) :
    "@unique" ∈ f.to_typeql_annotations ∧
    ∀ s ∈ f.to_typeql_annotations, s = "@key" ∨ s = "@unique" := by
  have hlist := anns_of_unique_card11 f hu hmin hmax
  constructor
  · rw [hlist]
    exact List.mem_append_right _ (by simp)
  · intro s hs
    rw [hlist] at hs
    rcases List.mem_append.mp hs with h | h
    · cases hk : f.is_key <;> rw [hk] at h <;> simp at h
      exact Or.inl h
    · simp at h
      exact Or.inr h

/-- Witness for claim C6 at the concrete declaration
`Flag(Unique, Card(1, 1))`. -/
theorem c6_witness :
    (Flag [FlagArg.unique, FlagArg.card ⟨some 1, some 1⟩]).is_unique = true ∧
    (Flag [FlagArg.unique, FlagArg.card ⟨some 1, some 1⟩]).card_min = some 1 ∧
    (Flag [FlagArg.unique, FlagArg.card ⟨some 1, some 1⟩]).card_max = some 1 ∧
    ("@unique" ∈ (Flag [FlagArg.unique, FlagArg.card ⟨some 1, some 1⟩]).to_typeql_annotations ∧
      ∀ s ∈ (Flag [FlagArg.unique, FlagArg.card ⟨some 1, some 1⟩]).to_typeql_annotations,
        s = "@key" ∨ s = "@unique") :=
  ⟨rfl, rfl, rfl, c6_unique_card11 _ rfl rfl rfl⟩

/-- Claim C7: for every combination of flags the rendered annotation list
decomposes as `@key` first if present, then `@unique` if present, then the
`@card(...)` annotation if it is emitted — no other annotations and no other
order ever occur. -/
theorem c7_annotation_order (f : AttributeFlags) :
    ∃ b : Bool,
      f.to_typeql_annotations =
        (if f.is_key then ["@key"] else []) ++
          (if f.is_unique then ["@unique"] else []) ++
          (if b then [cardAnn f.card_min f.card_max] else []) := by
  refine ⟨(f.card_min.isSome || f.card_max.isSome) && !f.is_key &&
    !(f.is_unique && (f.card_min == some 1 && f.card_max == some 1)), ?_⟩
  simp only [AttributeFlags.to_typeql_annotations]
  cases hk : f.is_key <;> cases hu : f.is_unique <;>
    cases hd : (f.card_min == some 1 && f.card_max == some 1) <;>
      cases hs : (f.card_min.isSome || f.card_max.isSome) <;>
        simp [hk, hu, hd, hs]

/-- Claim C8: a predicate expressed as a keyword-lookup kwarg whose key
splits into a role segment, an attribute segment and a trailing operator
suffix compiles to the identical internal `Predicate` structure
(pathSegments, operator, operand) as the typed role-field expression over
the same role, attribute, operator and operand — and to identical compiled
query text. -/
theorem c8_surface_equivalence (key role attr : String) (o : Op) (v : Value)
    (hsplit : splitKey key = [role, attr, opName o]) :
    parseKwarg key v = roleFieldPredicate role attr o v ∧
    compileQueryText [parseKwarg key v] =
      compileQueryText [roleFieldPredicate role attr o v] := by
  have h1 : (([role, attr, opName o] : List String)).getLast? = some (opName o) := rfl
  have h2 : (([role, attr, opName o] : List String)).dropLast = [role, attr] := rfl
  have hp : parseKwarg key v = roleFieldPredicate role attr o v := by
    simp only [parseKwarg, hsplit, h1, h2, knownOp_opName]
    rfl
  exact ⟨hp, by rw [hp]⟩

/-- Witness for claim C8 at the concrete kwarg `employee__age__gt=25` and
the typed expression `Employment.employee.age.gt(Age(25))`. -/
theorem c8_witness :
    splitKey "employee__age__gt" = ["employee", "age", opName Op.gt] ∧
    (parseKwarg "employee__age__gt" (Value.int 25) =
        roleFieldPredicate "employee" "age" Op.gt (Value.int 25) ∧
      compileQueryText [parseKwarg "employee__age__gt" (Value.int 25)] =
        compileQueryText [roleFieldPredicate "employee" "age" Op.gt (Value.int 25)]) :=
  ⟨rfl, c8_surface_equivalence "employee__age__gt" "employee" "age" Op.gt
    (Value.int 25) rfl⟩

/-- Claim C9: the `Flag` constructor is total (the embedding is a plain
function — the source contains no raise): an argument that is not the `Key`
marker, the `Unique` marker or a `Card` instance is silently ignored
wherever it occurs, and `Flag()` with no arguments yields flags with
`is_key = False`, `is_unique = False` and no cardinality set. -/
theorem c9_flag_ignores_unknown (pre post : List FlagArg) (junk : Nat) :
    Flag (pre ++ FlagArg.other junk :: post) = Flag (pre ++ post) ∧
    Flag [] = { is_key := false, is_unique := false, card_min := none,
                card_max := none, has_explicit_card := false } := by
  constructor
  · simp [Flag, List.foldl_append, FlagStep]
  · rfl

/-- Claim C10: for every subclass of `Attribute`, `get_attribute_name`
returns that subclass's own class name lowercased — `__init_subclass__`
re-derives `_attr_name` at each subclass definition, so the result never
depends on what the parent class would have contributed. -/
theorem c10_subclass_name (parent : PyAttrClass) (cls_name : String) :
    get_attribute_name (init_subclass parent cls_name) = pyLower cls_name := by
  simp [get_attribute_name, init_subclass, ite_self]

end TypeBridge
